import Mathlib

/-!
Verification of the AccountingSystem repository: a shallow embedding of the
tax-calculation edge function, the reporting aggregation logic, the backend
request handlers, and the client-side transaction cache, together with
theorems settling the specification claims about them.

Numeric values carried by the JavaScript/TypeScript sources are modelled as
rationals; JavaScript `Math.round(x * 100) / 100` becomes `round2` below.
-/

namespace Accounting

/-- Transaction type enumeration, from the `type IN ('income','expense')`
check of the schema and the TS union type. -/
inductive TxType where
  | income
  | expense
deriving DecidableEq, Repr

/-- Calendar date (year, month, day), the `date` column. -/
structure YMD where
  y : Nat
  m : Nat
  d : Nat
deriving DecidableEq, Repr

/-- Numeric key under which JavaScript `Date` comparison of ISO date strings
orders calendar dates. -/
def YMD.key (dt : YMD) : Nat := dt.y * 10000 + dt.m * 100 + dt.d

/-- Joined category info (`categories` field of a fetched transaction row):
`{ id, name, color }` or null. -/
structure CatInfo where
  id : String
  name : String
  color : String
deriving DecidableEq, Repr

/-- Transaction record as held in the client cache and returned by the API
(`Transaction` interface in TransactionContext.tsx). -/
structure Transaction where
  id : String
  user_id : String
  amount : Rat
  type : TxType
  date : YMD
  account : Option String := none
  document_no : Option String := none
  description : Option String := none
  category_id : Option String := none
  categories : Option CatInfo := none
deriving DecidableEq, Repr

/-- JavaScript `Math.round (q * 100) / 100`: `Math.round` is floor of the
argument plus one half, for negative arguments as well. -/
def round2 (q : Rat) : Rat := (Int.floor (q * 100 + 1 / 2) : Rat) / 100

/-- JavaScript `x || d` applied to a nullable numeric column: both null and
zero are falsy and fall back to the default. -/
def jsOr (o : Option Rat) (dflt : Rat) : Rat :=
  match o with
  | none => dflt
  | some v => if v = 0 then dflt else v

/-! ### Tax Calculator (supabase/functions/calculate-tax/index.ts) -/

/-- Row of `company_settings` as selected by the edge function:
`vat_rate, vat_registered, income_tax_rate` (the rate columns are nullable
with default 10 in the migration). -/
structure CompanySettings where
  vat_registered : Bool
  vat_rate : Option Rat
  income_tax_rate : Option Rat
deriving DecidableEq, Repr

/-- Response of the calculate-tax function: `incomeTaxAmount` and
`incomeTaxRate` are present only on the income branch. -/
structure TaxResponse where
  amount : Rat
  vatAmount : Rat
  vatRate : Rat
  amountWithoutVat : Rat
  incomeTaxAmount : Option Rat
  incomeTaxRate : Option Rat
deriving DecidableEq, Repr

/-- Tax calculation of the edge function body, translated line by line:
`vatRate` is `companySettings?.vat_registered ? (companySettings?.vat_rate || 10) : 0`,
`incomeTaxRate` is `companySettings?.income_tax_rate || 10`,
`vatAmount` is `(amount * vatRate) / (100 + vatRate)` when registered else 0,
`amountWithoutVat` is `amount - vatAmount`, the response fields are rounded
with `Math.round (x * 100) / 100`, and the income-tax fields are filled only
when `type === 'income'`. `cs = none` models an absent settings row
(`maybeSingle` returning null). -/
def calculateTax (amount : Rat) (type : TxType) (cs : Option CompanySettings) :
    TaxResponse :=
  let registered : Bool :=
    match cs with
    | some s => s.vat_registered
    | none => false
  let vatRate : Rat :=
    if registered then jsOr (cs.bind (fun s => s.vat_rate)) 10 else 0
  let incomeTaxRate : Rat := jsOr (cs.bind (fun s => s.income_tax_rate)) 10
  let vatAmount : Rat := if registered then amount * vatRate / (100 + vatRate) else 0
  let amountWithoutVat : Rat := amount - vatAmount
  { amount := amount
    vatAmount := round2 vatAmount
    vatRate := vatRate
    amountWithoutVat := round2 amountWithoutVat
    incomeTaxAmount :=
      if type = TxType.income then
        some (round2 (amountWithoutVat * incomeTaxRate / 100))
      else none
    incomeTaxRate :=
      if type = TxType.income then some incomeTaxRate else none }

/-- Reading of the spec sentence for the VAT rate, with the behaviour the
code actually has: registered picks the configured rate with zero or absent
falling back to 10, unregistered yields 0. -/
def specVatRate (cs : Option CompanySettings) : Rat :=
  match cs with
  | some s => if s.vat_registered then jsOr s.vat_rate 10 else 0
  | none => 0

/-- Exact (unrounded) VAT component extracted from the VAT-inclusive amount. -/
def specVatExact (amount : Rat) (cs : Option CompanySettings) : Rat :=
  match cs with
  | some s =>
      if s.vat_registered then amount * specVatRate cs / (100 + specVatRate cs)
      else 0
  | none => 0

/-- Income-tax rate the computation uses: the configured rate, with zero or
absent falling back to 10. -/
def specIncomeTaxRate (cs : Option CompanySettings) : Rat :=
  jsOr (cs.bind (fun s => s.income_tax_rate)) 10

/-- Registration flag of the settings row, false when the row is absent. -/
def specRegistered (cs : Option CompanySettings) : Bool :=
  match cs with
  | some s => s.vat_registered
  | none => false

/-- Settings row used by the worked example of the spec: VAT registered,
VAT rate 10, income-tax rate 10. -/
def exampleSettings : Option CompanySettings :=
  some { vat_registered := true, vat_rate := some 10, income_tax_rate := some 10 }

/-- Claim C1, counterexample: the claim states the returned `vatAmount`
equals `amount * vatRate / (100 + vatRate)` exactly, but the function rounds
each output to two decimals. At amount 1 with VAT rate 10 the code returns
9/100 while the stated formula gives 1/11. -/
theorem c1_tax_formula_counterexample :
    (calculateTax 1 TxType.income exampleSettings).vatAmount = 9 / 100 ∧
    ((9 : Rat) / 100 ≠ 1 * 10 / (100 + 10)) := by
  constructor
  · simp only [calculateTax, exampleSettings, jsOr, Option.bind]
    norm_num [round2]
  · norm_num

/-- Claim C1 (amended): for every amount, type and settings, the Tax
Calculator returns `vatRate` equal to the configured VAT rate when
registered (a zero or absent configured rate falling back to the default 10)
and 0 otherwise; `vatAmount` is the VAT component
`amount * vatRate / (100 + vatRate)` (0 when unregistered) rounded to two
decimals; `amountWithoutVat` is the amount minus the unrounded VAT
component, rounded to two decimals; the income-tax fields are present
exactly when the type is income, in which case `incomeTaxAmount` is the
unrounded `amountWithoutVat` times the income-tax rate (zero or absent
falling back to 10) over 100, rounded to two decimals; and the worked
example amount=110, registered, rates 10 yields 10.00 / 100.00 / 10.00. -/
theorem c1_tax_calculator_amended (amount : Rat) (type : TxType)
    (cs : Option CompanySettings) :
    (calculateTax amount type cs).vatRate = specVatRate cs ∧
    (calculateTax amount type cs).vatAmount = round2 (specVatExact amount cs) ∧
    (calculateTax amount type cs).amountWithoutVat =
      round2 (amount - specVatExact amount cs) ∧
    ((calculateTax amount type cs).incomeTaxAmount.isSome ↔ type = TxType.income) ∧
    (type = TxType.income →
      (calculateTax amount type cs).incomeTaxAmount =
        some (round2 ((amount - specVatExact amount cs) * specIncomeTaxRate cs / 100)) ∧
      (calculateTax amount type cs).incomeTaxRate = some (specIncomeTaxRate cs)) ∧
    (type = TxType.expense → (calculateTax amount type cs).incomeTaxAmount = none) ∧
    calculateTax 110 TxType.income exampleSettings =
      { amount := 110, vatAmount := 10, vatRate := 10, amountWithoutVat := 100,
        incomeTaxAmount := some 10, incomeTaxRate := some 10 } := by
  have hconc : calculateTax 110 TxType.income exampleSettings =
      { amount := 110, vatAmount := 10, vatRate := 10, amountWithoutVat := 100,
        incomeTaxAmount := some 10, incomeTaxRate := some 10 } := by
    simp only [calculateTax, exampleSettings, jsOr, Option.bind]
    norm_num [round2, TaxResponse.mk.injEq]
  refine ⟨?_, ?_, ?_, ?_, ?_, ?_, hconc⟩ <;>
    rcases cs with _ | ⟨reg, vr, itr⟩ <;>
    first
      | cases reg <;> cases type <;>
          simp [calculateTax, specVatRate, specVatExact, specIncomeTaxRate, jsOr]
      | cases type <;>
          simp [calculateTax, specVatRate, specVatExact, specIncomeTaxRate, jsOr]

/-- Witness for claim C1 at the worked example of the spec. -/
theorem c1_tax_calculator_amended_witness :
    (calculateTax 110 TxType.income exampleSettings).incomeTaxAmount =
      some (round2 ((110 - specVatExact 110 exampleSettings) *
        specIncomeTaxRate exampleSettings / 100)) :=
  ((c1_tax_calculator_amended 110 TxType.income exampleSettings).2.2.2.2.1 rfl).1

/-! ### Reporting Aggregator (src/pages/Reports.tsx, generateReportData) -/

/-- Date-range filter of `generateReportData`:
`txDate >= start && txDate <= end`, both bounds inclusive. -/
def inRange (s e : YMD) (t : Transaction) : Bool :=
  decide (s.key ≤ t.date.key) && decide (t.date.key ≤ e.key)

/-- The `filteredTransactions` list of `generateReportData`. -/
def filterByRange (txs : List Transaction) (s e : YMD) : List Transaction :=
  txs.filter (fun t => inRange s e t)

/-- Total income of the report: filter the filtered set to income rows and
reduce with `(sum, t) => sum + Number(t.amount)` from 0. -/
def totalIncome (txs : List Transaction) (s e : YMD) : Rat :=
  ((filterByRange txs s e).filter (fun t => t.type == TxType.income)).foldl
    (fun acc t => acc + t.amount) 0

/-- Total expenses of the report, the expense-side reduce. -/
def totalExpenses (txs : List Transaction) (s e : YMD) : Rat :=
  ((filterByRange txs s e).filter (fun t => t.type == TxType.expense)).foldl
    (fun acc t => acc + t.amount) 0

/-- Net balance of the report: `income - expenses`. -/
def netBalance (txs : List Transaction) (s e : YMD) : Rat :=
  totalIncome txs s e - totalExpenses txs s e

/-- Sum of the amounts of a list of transactions. -/
def sumAmounts (l : List Transaction) : Rat := (l.map (fun t => t.amount)).sum

/-- Total stated by the spec: the sum of amounts of transactions of the
given type whose date lies in the inclusive range. -/
def specTotal (txs : List Transaction) (s e : YMD) (ty : TxType) : Rat :=
  sumAmounts (txs.filter (fun t => t.type == ty && inRange s e t))

/-- Left fold of amount addition equals the accumulator plus the sum. -/
theorem foldl_add_amount (l : List Transaction) (a : Rat) :
    l.foldl (fun acc t => acc + t.amount) a = a + sumAmounts l := by
  induction l generalizing a with
  | nil => simp [sumAmounts]
  | cons t l ih => simp [sumAmounts, ih]; ring

/-- The income reduce computes the spec sum. -/
theorem totalIncome_eq (txs : List Transaction) (s e : YMD) :
    totalIncome txs s e = specTotal txs s e TxType.income := by
  rw [totalIncome, foldl_add_amount, specTotal, filterByRange, List.filter_filter,
    zero_add]

/-- The expense reduce computes the spec sum. -/
theorem totalExpenses_eq (txs : List Transaction) (s e : YMD) :
    totalExpenses txs s e = specTotal txs s e TxType.expense := by
  rw [totalExpenses, foldl_add_amount, specTotal, filterByRange, List.filter_filter,
    zero_add]

/-- Transactions of the aggregator example of the spec. -/
def exampleC2 : List Transaction :=
  [ { id := "a", user_id := "u", amount := 100, type := TxType.income,
      date := ⟨2024, 1, 10⟩ },
    { id := "b", user_id := "u", amount := 40, type := TxType.expense,
      date := ⟨2024, 1, 15⟩ },
    { id := "c", user_id := "u", amount := 60, type := TxType.income,
      date := ⟨2024, 2, 1⟩ } ]

/-- Claim C2: for every transaction collection and inclusive date range the
aggregator returns `totalIncome` equal to the sum of amounts of income
transactions dated in the range, `totalExpenses` likewise for expenses, and
`netBalance = totalIncome - totalExpenses`; the three-transaction example
filtered to January 2024 yields 100 / 40 / 60. -/
theorem c2_report_totals (txs : List Transaction) (s e : YMD) :
    totalIncome txs s e = specTotal txs s e TxType.income ∧
    totalExpenses txs s e = specTotal txs s e TxType.expense ∧
    netBalance txs s e = totalIncome txs s e - totalExpenses txs s e ∧
    totalIncome exampleC2 ⟨2024, 1, 1⟩ ⟨2024, 1, 31⟩ = 100 ∧
    totalExpenses exampleC2 ⟨2024, 1, 1⟩ ⟨2024, 1, 31⟩ = 40 ∧
    netBalance exampleC2 ⟨2024, 1, 1⟩ ⟨2024, 1, 31⟩ = 60 := by
  refine ⟨totalIncome_eq txs s e, totalExpenses_eq txs s e, rfl, ?_, ?_, ?_⟩ <;>
    (simp [totalIncome, totalExpenses, netBalance, filterByRange, inRange,
      exampleC2, YMD.key] <;> norm_num)

/-! ### Monthly trend (generateReportData, monthly grouping and sort) -/

structure MonthEntry where
  y : Nat
  m : Nat
  income : Rat
  expenses : Rat
  profit : Rat
deriving DecidableEq, Repr

def sameMonth (t : Transaction) (en : MonthEntry) : Bool :=
  t.date.y == en.y && t.date.m == en.m

def bumpMonth (t : Transaction) (en : MonthEntry) : MonthEntry :=
  let inc := if t.type == TxType.income then en.income + t.amount else en.income
  let exp := if t.type == TxType.income then en.expenses else en.expenses + t.amount
  { en with income := inc, expenses := exp, profit := inc - exp }

def trendStep (acc : List MonthEntry) (t : Transaction) : List MonthEntry :=
  if acc.any (fun en => sameMonth t en) then
    acc.map (fun en => if sameMonth t en then bumpMonth t en else en)
  else
    acc ++ [bumpMonth t { y := t.date.y, m := t.date.m, income := 0, expenses := 0, profit := 0 }]

def monthLE (a b : MonthEntry) : Prop := a.y * 12 + a.m ≤ b.y * 12 + b.m

instance : DecidableRel monthLE := fun a b =>
  inferInstanceAs (Decidable (a.y * 12 + a.m ≤ b.y * 12 + b.m))

instance : IsTotal MonthEntry monthLE := ⟨fun a b => Nat.le_total (a.y * 12 + a.m) (b.y * 12 + b.m)⟩

instance : IsTrans MonthEntry monthLE := ⟨fun _ _ _ => Nat.le_trans⟩

def monthlyTrendRaw (txs : List Transaction) (s e : YMD) : List MonthEntry :=
  (filterByRange txs s e).foldl trendStep []

def monthlyTrend (txs : List Transaction) (s e : YMD) : List MonthEntry :=
  (monthlyTrendRaw txs s e).insertionSort monthLE

def inMonth (y m : Nat) (t : Transaction) : Bool := t.date.y == y && t.date.m == m

def monthIncome (l : List Transaction) (y m : Nat) : Rat :=
  sumAmounts (l.filter (fun t => t.type == TxType.income && inMonth y m t))

def monthExpenses (l : List Transaction) (y m : Nat) : Rat :=
  sumAmounts (l.filter (fun t => t.type == TxType.expense && inMonth y m t))

def monthsOf (acc : List MonthEntry) : List (Nat × Nat) :=
  acc.map (fun en => (en.y, en.m))

def TrendInv (acc : List MonthEntry) (seen : List Transaction) : Prop :=
  (monthsOf acc).Nodup ∧
  (∀ y m, ((y, m) ∈ monthsOf acc ↔ ∃ t ∈ seen, t.date.y = y ∧ t.date.m = m)) ∧
  (∀ en ∈ acc, en.income = monthIncome seen en.y en.m ∧
    en.expenses = monthExpenses seen en.y en.m ∧
    en.profit = en.income - en.expenses)

theorem monthIncome_append (l : List Transaction) (t : Transaction) (y m : Nat) :
    monthIncome (l ++ [t]) y m =
      monthIncome l y m +
        (if t.type == TxType.income && inMonth y m t then t.amount else 0) := by
  rw [monthIncome, monthIncome, List.filter_append]
  cases h : (t.type == TxType.income && inMonth y m t) <;>
    simp [sumAmounts, h]

theorem monthExpenses_append (l : List Transaction) (t : Transaction) (y m : Nat) :
    monthExpenses (l ++ [t]) y m =
      monthExpenses l y m +
        (if t.type == TxType.expense && inMonth y m t then t.amount else 0) := by
  rw [monthExpenses, monthExpenses, List.filter_append]
  cases h : (t.type == TxType.expense && inMonth y m t) <;>
    simp [sumAmounts, h]

theorem monthIncome_eq_zero (l : List Transaction) (y m : Nat)
    (h : ∀ t ∈ l, ¬(t.date.y = y ∧ t.date.m = m)) : monthIncome l y m = 0 := by
  rw [monthIncome, List.filter_eq_nil_iff.mpr, sumAmounts]
  · simp
  · intro t ht
    simp [inMonth]
    intro _ hy hm
    exact absurd ⟨hy, hm⟩ (h t ht)

theorem monthExpenses_eq_zero (l : List Transaction) (y m : Nat)
    (h : ∀ t ∈ l, ¬(t.date.y = y ∧ t.date.m = m)) : monthExpenses l y m = 0 := by
  rw [monthExpenses, List.filter_eq_nil_iff.mpr, sumAmounts]
  · simp
  · intro t ht
    simp [inMonth]
    intro _ hy hm
    exact absurd ⟨hy, hm⟩ (h t ht)

theorem trendInv_step (acc : List MonthEntry) (seen : List Transaction)
    (t : Transaction) (h : TrendInv acc seen) :
    TrendInv (trendStep acc t) (seen ++ [t]) := by
  obtain ⟨hnd, hmem, hval⟩ := h
  by_cases hany : (acc.any (fun en => sameMonth t en)) = true
  · -- month of t already present: in-place update
    have hstep : trendStep acc t =
        acc.map (fun en => if sameMonth t en then bumpMonth t en else en) := by
      rw [trendStep, if_pos hany]
    have hmonths : monthsOf (acc.map (fun en => if sameMonth t en then bumpMonth t en else en)) =
        monthsOf acc := by
      rw [monthsOf, monthsOf, List.map_map]
      apply List.map_congr_left
      intro en _
      by_cases hsm : sameMonth t en = true <;> simp [hsm, bumpMonth]
    have hex : ∃ t0 ∈ seen, t0.date.y = t.date.y ∧ t0.date.m = t.date.m := by
      rcases List.any_eq_true.mp hany with ⟨en, henacc, hsm⟩
      simp only [sameMonth, Bool.and_eq_true, beq_iff_eq] at hsm
      refine (hmem t.date.y t.date.m).mp ?_
      rw [monthsOf, List.mem_map]
      exact ⟨en, henacc, by rw [hsm.1, hsm.2]⟩
    refine ⟨?_, ?_, ?_⟩
    · rw [hstep, hmonths]; exact hnd
    · intro y m
      rw [hstep, hmonths, hmem y m]
      constructor
      · rintro ⟨t0, ht0, hy, hm⟩
        exact ⟨t0, List.mem_append_left _ ht0, hy, hm⟩
      · rintro ⟨t0, ht0, hy, hm⟩
        rcases List.mem_append.mp ht0 with h1 | h2
        · exact ⟨t0, h1, hy, hm⟩
        · obtain ⟨t1, ht1, hy1, hm1⟩ := hex
          simp only [List.mem_singleton] at h2
          subst h2
          exact ⟨t1, ht1, by rw [hy1, hy], by rw [hm1, hm]⟩
    · intro en2 hen2
      rw [hstep] at hen2
      rcases List.mem_map.mp hen2 with ⟨en, henacc, hdef⟩
      obtain ⟨hinc, hexp, hprofit⟩ := hval en henacc
      by_cases hsm : sameMonth t en = true
      · rw [if_pos hsm] at hdef
        subst hdef
        have hsm2 : inMonth en.y en.m t = true := by
          simpa [sameMonth, inMonth] using hsm
        cases hty : t.type
        · -- income transaction
          refine ⟨?_, ?_, ?_⟩
          · simp [bumpMonth, hty, monthIncome_append, hsm2, hinc]
          · simp [bumpMonth, hty, monthExpenses_append, hsm2, hexp]
          · simp [bumpMonth, hty]
        · refine ⟨?_, ?_, ?_⟩
          · simp [bumpMonth, hty, monthIncome_append, hsm2, hinc]
          · simp [bumpMonth, hty, monthExpenses_append, hsm2, hexp]
          · simp [bumpMonth, hty]
      · rw [if_neg hsm] at hdef
        subst hdef
        have hsm2 : inMonth en.y en.m t = false := by
          simpa [sameMonth, inMonth] using hsm
        refine ⟨?_, ?_, hprofit⟩
        · simp [monthIncome_append, hsm2, hinc]
        · simp [monthExpenses_append, hsm2, hexp]
  · -- new month: append a fresh entry
    have hstep : trendStep acc t = acc ++
        [bumpMonth t { y := t.date.y, m := t.date.m, income := 0, expenses := 0, profit := 0 }] := by
      rw [trendStep, if_neg hany]
    have hnotmem : (t.date.y, t.date.m) ∉ monthsOf acc := by
      intro hc
      rcases List.mem_map.mp hc with ⟨en, henacc, hpair⟩
      rw [Prod.mk.injEq] at hpair
      apply hany
      refine List.any_eq_true.mpr ⟨en, henacc, ?_⟩
      simp only [sameMonth, Bool.and_eq_true, beq_iff_eq]
      exact ⟨hpair.1.symm, hpair.2.symm⟩
    have hmonths : monthsOf (trendStep acc t) = monthsOf acc ++ [(t.date.y, t.date.m)] := by
      rw [hstep, monthsOf, List.map_append, monthsOf]
      simp [bumpMonth]
    refine ⟨?_, ?_, ?_⟩
    · rw [hmonths, List.nodup_append]
      refine ⟨hnd, List.nodup_singleton _, ?_⟩
      intro p hp hq
      simp only [List.mem_singleton] at hq
      subst hq
      exact hnotmem hp
    · intro y m
      rw [hmonths]
      rw [List.mem_append]
      constructor
      · rintro (h1 | h2)
        · obtain ⟨t0, ht0, hy, hm⟩ := (hmem y m).mp h1
          exact ⟨t0, List.mem_append_left _ ht0, hy, hm⟩
        · simp only [List.mem_singleton, Prod.mk.injEq] at h2
          exact ⟨t, List.mem_append_right _ (List.mem_singleton_self t), h2.1.symm, h2.2.symm⟩
      · rintro ⟨t0, ht0, hy, hm⟩
        rcases List.mem_append.mp ht0 with h1 | h2
        · exact Or.inl ((hmem y m).mpr ⟨t0, h1, hy, hm⟩)
        · simp only [List.mem_singleton] at h2
          subst h2
          refine Or.inr ?_
          simp [hy, hm]
    · intro en2 hen2
      rw [hstep] at hen2
      rcases List.mem_append.mp hen2 with h1 | h2
      · obtain ⟨hinc, hexp, hprof⟩ := hval en2 h1
        have hmon : inMonth en2.y en2.m t = false := by
          by_contra hc
          have hc2 : inMonth en2.y en2.m t = true := by
            cases hv : inMonth en2.y en2.m t
            · exact absurd hv hc
            · rfl
          apply hany
          refine List.any_eq_true.mpr ⟨en2, h1, ?_⟩
          simpa [sameMonth, inMonth] using hc2
        refine ⟨?_, ?_, hprof⟩
        · simp [monthIncome_append, hmon, hinc]
        · simp [monthExpenses_append, hmon, hexp]
      · simp only [List.mem_singleton] at h2
        subst h2
        have hnoseen : ∀ t0 ∈ seen, ¬(t0.date.y = t.date.y ∧ t0.date.m = t.date.m) := by
          intro t0 ht0 hc
          exact hnotmem ((hmem _ _).mpr ⟨t0, ht0, hc.1, hc.2⟩)
        have hzi : monthIncome seen t.date.y t.date.m = 0 := monthIncome_eq_zero _ _ _ hnoseen
        have hze : monthExpenses seen t.date.y t.date.m = 0 := monthExpenses_eq_zero _ _ _ hnoseen
        have hmon : inMonth t.date.y t.date.m t = true := by simp [inMonth]
        cases hty : t.type <;>
          refine ⟨?_, ?_, ?_⟩ <;>
            simp [bumpMonth, hty, monthIncome_append, monthExpenses_append, hmon, hzi, hze]

theorem trendInv_foldl (l : List Transaction) :
    ∀ (acc : List MonthEntry) (seen : List Transaction), TrendInv acc seen →
      TrendInv (l.foldl trendStep acc) (seen ++ l) := by
  induction l with
  | nil => intro acc seen h; simpa using h
  | cons t l ih =>
      intro acc seen h
      have h2 := trendInv_step acc seen t h
      have h3 := ih (trendStep acc t) (seen ++ [t]) h2
      simpa using h3

theorem trendInv_nil : TrendInv [] [] := by
  refine ⟨List.nodup_nil, ?_, ?_⟩
  · intro y m
    simp [monthsOf]
  · intro en hen
    simp at hen

theorem trendInv_raw (txs : List Transaction) (s e : YMD) :
    TrendInv (monthlyTrendRaw txs s e) (filterByRange txs s e) := by
  have h := trendInv_foldl (filterByRange txs s e) [] [] trendInv_nil
  simpa [monthlyTrendRaw] using h

theorem trendInv_sorted (txs : List Transaction) (s e : YMD) :
    TrendInv (monthlyTrend txs s e) (filterByRange txs s e) := by
  obtain ⟨hnd, hmem, hval⟩ := trendInv_raw txs s e
  have hperm : List.Perm (monthlyTrend txs s e) (monthlyTrendRaw txs s e) :=
    List.perm_insertionSort monthLE (monthlyTrendRaw txs s e)
  have hpermm : List.Perm (monthsOf (monthlyTrend txs s e)) (monthsOf (monthlyTrendRaw txs s e)) := by
    rw [monthsOf, monthsOf]
    exact hperm.map (fun en => (en.y, en.m))
  refine ⟨hpermm.nodup_iff.mpr hnd, ?_, ?_⟩
  · intro y m
    rw [hpermm.mem_iff]
    exact hmem y m
  · intro en hen
    exact hval en (hperm.mem_iff.mp hen)

theorem monthlyTrend_sorted_le (txs : List Transaction) (s e : YMD) :
    (monthlyTrend txs s e).Pairwise monthLE :=
  List.sorted_insertionSort monthLE (monthlyTrendRaw txs s e)

theorem monthlyTrend_sorted_strict (txs : List Transaction) (s e : YMD)
    (hm : ∀ t ∈ txs, 1 ≤ t.date.m ∧ t.date.m ≤ 12) :
    (monthlyTrend txs s e).Pairwise
      (fun a b => a.y * 12 + a.m < b.y * 12 + b.m) := by
  obtain ⟨hnd, hmem, _⟩ := trendInv_sorted txs s e
  have hne : (monthlyTrend txs s e).Pairwise
      (fun a b => (a.y, a.m) ≠ (b.y, b.m)) := by
    have := (List.pairwise_map (f := fun en : MonthEntry => (en.y, en.m))).mp hnd
    exact this
  have hand := (monthlyTrend_sorted_le txs s e).and hne
  have hv : ∀ en ∈ monthlyTrend txs s e, 1 ≤ en.m ∧ en.m ≤ 12 := by
    intro en hen
    have : (en.y, en.m) ∈ monthsOf (monthlyTrend txs s e) :=
      List.mem_map.mpr ⟨en, hen, rfl⟩
    obtain ⟨t0, ht0, hy0, hm0⟩ := (hmem en.y en.m).mp this
    have ht0txs : t0 ∈ txs := List.mem_of_mem_filter ht0
    have := hm t0 ht0txs
    omega
  refine hand.imp_of_mem ?_
  intro a b ha hb hab
  obtain ⟨hle, hne2⟩ := hab
  have hva := hv a ha
  have hvb := hv b hb
  rw [monthLE] at hle
  rw [ne_eq, Prod.mk.injEq] at hne2
  omega

def exampleC3 : List Transaction :=
  [ { id := "j", user_id := "u", amount := 7, type := TxType.income,
      date := ⟨2025, 1, 10⟩ },
    { id := "d", user_id := "u", amount := 5, type := TxType.expense,
      date := ⟨2024, 12, 20⟩ } ]

/-- Claim C3: for every transaction collection and date range the
monthlyTrend has exactly one entry per calendar month present in the
filtered set (entry months are duplicate-free and a month appears among
them exactly when some filtered transaction falls in it), each entry
carries that month's income sum, expense sum and profit = income -
expenses, and the entries are strictly ascending in the parsed month-year
(year times 12 plus month), the sort key the code recovers by re-parsing
the month label into a Date; a Jan 2025 transaction listed before a Dec
2024 one comes out with Dec 2024 first. -/
theorem c3_monthly_trend (txs : List Transaction) (s e : YMD)
    (hm : ∀ t ∈ txs, 1 ≤ t.date.m ∧ t.date.m ≤ 12) :
    ((monthlyTrend txs s e).Pairwise
      (fun a b => a.y * 12 + a.m < b.y * 12 + b.m)) ∧
    (monthsOf (monthlyTrend txs s e)).Nodup ∧
    (∀ y m, ((y, m) ∈ monthsOf (monthlyTrend txs s e) ↔
      ∃ t ∈ filterByRange txs s e, t.date.y = y ∧ t.date.m = m)) ∧
    (∀ en ∈ monthlyTrend txs s e,
      en.income = monthIncome (filterByRange txs s e) en.y en.m ∧
      en.expenses = monthExpenses (filterByRange txs s e) en.y en.m ∧
      en.profit = en.income - en.expenses) ∧
    monthlyTrend exampleC3 ⟨2024, 12, 1⟩ ⟨2025, 1, 31⟩ =
      [ { y := 2024, m := 12, income := 0, expenses := 5, profit := -5 },
        { y := 2025, m := 1, income := 7, expenses := 0, profit := 7 } ] := by
  obtain ⟨hnd, hmem, hval⟩ := trendInv_sorted txs s e
  refine ⟨monthlyTrend_sorted_strict txs s e hm, hnd, hmem, hval, ?_⟩
  simp [monthlyTrend, monthlyTrendRaw, filterByRange, inRange, exampleC3, YMD.key,
    trendStep, sameMonth, bumpMonth, monthLE, List.insertionSort, List.orderedInsert]

/-- Witness for claim C3 at the two-month example. -/
theorem c3_monthly_trend_witness :
    (monthlyTrend exampleC3 ⟨2024, 12, 1⟩ ⟨2025, 1, 31⟩).Pairwise
      (fun a b => a.y * 12 + a.m < b.y * 12 + b.m) :=
  (c3_monthly_trend exampleC3 ⟨2024, 12, 1⟩ ⟨2025, 1, 31⟩ (by decide)).1


/-! ### Category breakdowns (generateReportData, pie chart maps) -/

structure CatEntry where
  name : String
  value : Rat
  color : String
deriving DecidableEq, Repr

def synthName : TxType → String
  | TxType.income => "Uncategorized Income"
  | TxType.expense => "Uncategorized Expense"

def synthColor : TxType → String
  | TxType.income => "#10b981"
  | TxType.expense => "#ef4444"

def effColor (c : CatInfo) : String := if c.color = "" then "#8884d8" else c.color

def bucketOf (t : Transaction) : Option (String × String) :=
  match t.categories with
  | some c => some (c.name, effColor c)
  | none =>
      match t.category_id with
      | some cid => if cid = "" then none else some (synthName t.type, synthColor t.type)
      | none => none

def mapSet (m : List CatEntry) (n : String) (amt : Rat) (c : String) : List CatEntry :=
  if m.any (fun en => en.name == n) then
    m.map (fun en =>
      if en.name == n then { name := n, value := en.value + amt, color := c } else en)
  else m ++ [{ name := n, value := amt, color := c }]

def mapStep (m : List CatEntry) (t : Transaction) : List CatEntry :=
  match bucketOf t with
  | none => m
  | some (n, c) => mapSet m n t.amount c

def catStep2 (maps : List CatEntry × List CatEntry) (t : Transaction) :
    List CatEntry × List CatEntry :=
  match bucketOf t with
  | none => maps
  | some (n, c) =>
      if t.type == TxType.income then (mapSet maps.1 n t.amount c, maps.2)
      else (maps.1, mapSet maps.2 n t.amount c)

def incomeByCategory (txs : List Transaction) (s e : YMD) : List CatEntry :=
  ((filterByRange txs s e).foldl catStep2 ([], [])).1

def expensesByCategory (txs : List Transaction) (s e : YMD) : List CatEntry :=
  ((filterByRange txs s e).foldl catStep2 ([], [])).2

theorem catStep2_income (a b : List CatEntry) (t : Transaction)
    (hty : t.type = TxType.income) : catStep2 (a, b) t = (mapStep a t, b) := by
  cases hb : bucketOf t with
  | none => simp [catStep2, mapStep, hb]
  | some p => cases p with
    | mk n c => simp [catStep2, mapStep, hb, hty]

theorem catStep2_expense (a b : List CatEntry) (t : Transaction)
    (hty : t.type = TxType.expense) : catStep2 (a, b) t = (a, mapStep b t) := by
  cases hb : bucketOf t with
  | none => simp [catStep2, mapStep, hb]
  | some p => cases p with
    | mk n c => simp [catStep2, mapStep, hb, hty]

theorem catStep2_foldl (l : List Transaction) : ∀ (a b : List CatEntry),
    l.foldl catStep2 (a, b) =
      ((l.filter (fun t => t.type == TxType.income)).foldl mapStep a,
       (l.filter (fun t => t.type == TxType.expense)).foldl mapStep b) := by
  induction l with
  | nil => intro a b; simp
  | cons t l ih =>
      intro a b
      cases hty : t.type
      · rw [List.foldl_cons, catStep2_income a b t hty, ih]
        simp [hty]
      · rw [List.foldl_cons, catStep2_expense a b t hty, ih]
        simp [hty]

def namesOf (m : List CatEntry) : List String := m.map (fun en => en.name)

def bucketName (t : Transaction) : Option String := (bucketOf t).map Prod.fst

def bucketSum (l : List Transaction) (n : String) : Rat :=
  sumAmounts (l.filter (fun t => bucketName t == some n))

def CatInv (m : List CatEntry) (seen : List Transaction) : Prop :=
  (namesOf m).Nodup ∧
  (∀ n, (n ∈ namesOf m ↔ ∃ t ∈ seen, bucketName t = some n)) ∧
  (∀ en ∈ m, en.value = bucketSum seen en.name ∧
    ∃ t ∈ seen, bucketOf t = some (en.name, en.color))

theorem bucketSum_append (l : List Transaction) (t : Transaction) (n : String) :
    bucketSum (l ++ [t]) n =
      bucketSum l n + (if bucketName t == some n then t.amount else 0) := by
  rw [bucketSum, bucketSum, List.filter_append]
  cases h : (bucketName t == some n) <;> simp [sumAmounts, h]

theorem bucketSum_eq_zero (l : List Transaction) (n : String)
    (h : ∀ t ∈ l, bucketName t ≠ some n) : bucketSum l n = 0 := by
  rw [bucketSum, List.filter_eq_nil_iff.mpr, sumAmounts]
  · simp
  · intro t ht
    simp
    exact h t ht

theorem catInv_step (m : List CatEntry) (seen : List Transaction) (t : Transaction)
    (h : CatInv m seen) : CatInv (mapStep m t) (seen ++ [t]) := by
  obtain ⟨hnd, hmem, hval⟩ := h
  cases hb : bucketOf t with
  | none =>
      have hbn : bucketName t = none := by rw [bucketName, hb]; rfl
      rw [mapStep, hb]
      refine ⟨hnd, ?_, ?_⟩
      · intro n
        rw [hmem n]
        constructor
        · rintro ⟨t0, ht0, h0⟩
          exact ⟨t0, List.mem_append_left _ ht0, h0⟩
        · rintro ⟨t0, ht0, h0⟩
          rcases List.mem_append.mp ht0 with h1 | h2
          · exact ⟨t0, h1, h0⟩
          · simp only [List.mem_singleton] at h2
            subst h2
            rw [hbn] at h0
            exact absurd h0 (by simp)
      · intro en hen
        obtain ⟨hv, t0, ht0, h0⟩ := hval en hen
        refine ⟨?_, t0, List.mem_append_left _ ht0, h0⟩
        rw [bucketSum_append, hbn]
        simpa using hv
  | some p =>
      cases p with
      | mk n0 c0 =>
        have hbn : bucketName t = some n0 := by rw [bucketName, hb]; rfl
        rw [mapStep, hb]
        show CatInv (mapSet m n0 t.amount c0) (seen ++ [t])
        by_cases hany : (m.any (fun en => en.name == n0)) = true
        · -- name already present: in-place update
          have hset : mapSet m n0 t.amount c0 =
              m.map (fun en => if en.name == n0 then
                { name := n0, value := en.value + t.amount, color := c0 } else en) := by
            rw [mapSet, if_pos hany]
          have hnames : namesOf (mapSet m n0 t.amount c0) = namesOf m := by
            rw [hset, namesOf, List.map_map, namesOf]
            apply List.map_congr_left
            intro en _
            by_cases hn : (en.name == n0) = true
            · simp only [Function.comp_apply, if_pos hn]
              exact (beq_iff_eq.mp hn).symm
            · simp only [Function.comp_apply, if_neg hn]
          have hn0mem : n0 ∈ namesOf m := by
            rcases List.any_eq_true.mp hany with ⟨en, henm, hq⟩
            rw [namesOf, List.mem_map]
            exact ⟨en, henm, beq_iff_eq.mp hq⟩
          refine ⟨by rw [hnames]; exact hnd, ?_, ?_⟩
          · intro n
            rw [hnames, hmem n]
            constructor
            · rintro ⟨t0, ht0, h0⟩
              exact ⟨t0, List.mem_append_left _ ht0, h0⟩
            · rintro ⟨t0, ht0, h0⟩
              rcases List.mem_append.mp ht0 with h1 | h2
              · exact ⟨t0, h1, h0⟩
              · simp only [List.mem_singleton] at h2
                subst h2
                rw [hbn] at h0
                have : n = n0 := by simpa using h0.symm
                subst this
                exact (hmem n).mp hn0mem
          · intro en2 hen2
            rw [hset] at hen2
            rcases List.mem_map.mp hen2 with ⟨en, henm, hdef⟩
            obtain ⟨hv, t0, ht0, h0⟩ := hval en henm
            by_cases hn : (en.name == n0) = true
            · rw [if_pos hn] at hdef
              subst hdef
              have hne : en.name = n0 := beq_iff_eq.mp hn
              refine ⟨?_, t, List.mem_append_right _ (List.mem_singleton_self t), ?_⟩
              · have hv2 : en.value = bucketSum seen n0 := by rw [hv, hne]
                rw [bucketSum_append, hbn, hv2]
                simp
              · rw [hb]
            · rw [if_neg hn] at hdef
              subst hdef
              have hne2 : en.name ≠ n0 := fun hc => hn (beq_iff_eq.mpr hc)
              refine ⟨?_, t0, List.mem_append_left _ ht0, h0⟩
              have hcond : (bucketName t == some en.name) = false := by
                rw [hbn]
                exact beq_eq_false_iff_ne.mpr
                  (fun hc => hne2 (Option.some.inj hc).symm)
              rw [bucketSum_append, hcond]
              simpa using hv
        · -- new name: append
          have hset : mapSet m n0 t.amount c0 =
              m ++ [{ name := n0, value := t.amount, color := c0 }] := by
            rw [mapSet, if_neg hany]
          have hn0notmem : n0 ∉ namesOf m := by
            intro hc
            rcases List.mem_map.mp hc with ⟨en, henm, hdef⟩
            exact hany (List.any_eq_true.mpr ⟨en, henm, beq_iff_eq.mpr hdef⟩)
          have hnoseen : ∀ t0 ∈ seen, bucketName t0 ≠ some n0 := by
            intro t0 ht0 hc
            exact hn0notmem ((hmem n0).mpr ⟨t0, ht0, hc⟩)
          have hnames : namesOf (mapSet m n0 t.amount c0) = namesOf m ++ [n0] := by
            rw [hset, namesOf, List.map_append, namesOf]
            rfl
          refine ⟨?_, ?_, ?_⟩
          · rw [hnames, List.nodup_append]
            refine ⟨hnd, List.nodup_singleton _, ?_⟩
            intro p hp hq
            simp only [List.mem_singleton] at hq
            subst hq
            exact hn0notmem hp
          · intro n
            rw [hnames, List.mem_append]
            constructor
            · rintro (h1 | h2)
              · obtain ⟨t0, ht0, h0⟩ := (hmem n).mp h1
                exact ⟨t0, List.mem_append_left _ ht0, h0⟩
              · simp only [List.mem_singleton] at h2
                subst h2
                exact ⟨t, List.mem_append_right _ (List.mem_singleton_self t), hbn⟩
            · rintro ⟨t0, ht0, h0⟩
              rcases List.mem_append.mp ht0 with h1 | h2
              · exact Or.inl ((hmem n).mpr ⟨t0, h1, h0⟩)
              · simp only [List.mem_singleton] at h2
                subst h2
                rw [hbn] at h0
                refine Or.inr ?_
                simpa using h0.symm
          · intro en2 hen2
            rw [hset] at hen2
            rcases List.mem_append.mp hen2 with h1 | h2
            · obtain ⟨hv, t0, ht0, h0⟩ := hval en2 h1
              refine ⟨?_, t0, List.mem_append_left _ ht0, h0⟩
              rw [bucketSum_append, hbn]
              have hne : en2.name ≠ n0 := by
                intro hc
                exact hn0notmem (hc ▸ List.mem_map.mpr ⟨en2, h1, rfl⟩)
              have hcond : ((some n0 : Option String) == some en2.name) = false :=
                beq_eq_false_iff_ne.mpr (fun hc => hne (Option.some.inj hc).symm)
              rw [hcond]
              simpa using hv
            · simp only [List.mem_singleton] at h2
              subst h2
              refine ⟨?_, t, List.mem_append_right _ (List.mem_singleton_self t), by rw [hb]⟩
              rw [bucketSum_append, hbn]
              have hz : bucketSum seen n0 = 0 := bucketSum_eq_zero seen n0 hnoseen
              simp [hz]

theorem catInv_foldl (l : List Transaction) :
    ∀ (m : List CatEntry) (seen : List Transaction), CatInv m seen →
      CatInv (l.foldl mapStep m) (seen ++ l) := by
  induction l with
  | nil => intro m seen h; simpa using h
  | cons t l ih =>
      intro m seen h
      have h2 := catInv_step m seen t h
      have h3 := ih (mapStep m t) (seen ++ [t]) h2
      simpa using h3

theorem catInv_nil : CatInv [] [] := by
  refine ⟨List.nodup_nil, ?_, ?_⟩
  · intro n
    simp [namesOf]
  · intro en hen
    simp at hen


def resolvedName (t : Transaction) : Option String := t.categories.map (fun c => c.name)

def unresolvedRef (t : Transaction) : Bool :=
  match t.categories, t.category_id with
  | none, some cid => !(cid == "")
  | _, _ => false

def resolvedTypeSum (l : List Transaction) (ty : TxType) (n : String) : Rat :=
  sumAmounts (l.filter (fun t => t.type == ty && resolvedName t == some n))

def unresolvedTypeSum (l : List Transaction) (ty : TxType) : Rat :=
  sumAmounts (l.filter (fun t => t.type == ty && unresolvedRef t))

theorem bool_eq_of_iff {a b : Bool} (h : a = true ↔ b = true) : a = b := by
  cases a <;> cases b <;> simp_all

theorem bucketOf_of_resolved (t : Transaction) (c : CatInfo)
    (h : t.categories = some c) : bucketOf t = some (c.name, effColor c) := by
  rw [bucketOf, h]

theorem bucketOf_of_unresolved (t : Transaction) (h : unresolvedRef t = true) :
    bucketOf t = some (synthName t.type, synthColor t.type) := by
  rw [unresolvedRef] at h
  cases hc : t.categories <;> cases hid : t.category_id <;> rw [hc, hid] at h
  case none.none => exact absurd h (by simp)
  case none.some cid =>
      have hcid : ¬cid = "" := by simpa using h
      simp only [bucketOf, hc, hid]
      rw [if_neg hcid]
  case some.none => exact absurd h (by simp)
  case some.some => exact absurd h (by simp)

theorem unresolvedRef_of_shape (t : Transaction) (cid : String)
    (hc : t.categories = none) (hid : t.category_id = some cid) (hcid : cid ≠ "") :
    unresolvedRef t = true := by
  rw [unresolvedRef, hc, hid]
  simpa using hcid

theorem bucketName_resolved_iff (t : Transaction) (n : String)
    (hn : n ≠ synthName t.type) :
    bucketName t = some n ↔ resolvedName t = some n := by
  cases hc : t.categories with
  | some c =>
      rw [bucketName, bucketOf_of_resolved t c hc, resolvedName, hc]
      simp
  | none =>
      rw [resolvedName, hc]
      cases hid : t.category_id with
      | none =>
          simp [bucketName, bucketOf, hc, hid]
      | some cid =>
          by_cases hcid : cid = ""
          · simp only [bucketName, bucketOf, hc, hid]
            rw [if_pos hcid]
            simp
          · simp only [bucketName, bucketOf, hc, hid]
            rw [if_neg hcid]
            simp
            exact fun hcon => hn hcon.symm

theorem bucketName_synth_iff (t : Transaction)
    (H1 : ∀ c, t.categories = some c → c.name ≠ synthName t.type) :
    bucketName t = some (synthName t.type) ↔ unresolvedRef t = true := by
  cases hc : t.categories with
  | some c =>
      rw [bucketName, bucketOf_of_resolved t c hc, unresolvedRef, hc]
      simp
      exact fun hcon => H1 c hc hcon
  | none =>
      cases hid : t.category_id with
      | none =>
          simp [bucketName, bucketOf, unresolvedRef, hc, hid]
      | some cid =>
          by_cases hcid : cid = ""
          · simp only [bucketName, bucketOf, unresolvedRef, hc, hid]
            rw [if_pos hcid]
            simp [hcid]
          · simp only [bucketName, bucketOf, unresolvedRef, hc, hid]
            rw [if_neg hcid]
            simp [hcid]


theorem catMap_master (l : List Transaction) (ty : TxType)
    (hl : ∀ t ∈ l, t.type = ty)
    (H1 : ∀ t ∈ l, ∀ c, t.categories = some c → c.name ≠ synthName ty)
    (H2 : ∀ t ∈ l, ∀ u ∈ l, ∀ c d, t.categories = some c → u.categories = some d →
      c.name = d.name → effColor c = effColor d) :
    (namesOf (l.foldl mapStep [])).Nodup ∧
    (∀ n, n ≠ synthName ty →
      ((n ∈ namesOf (l.foldl mapStep [])) ↔ ∃ t ∈ l, resolvedName t = some n)) ∧
    (∀ en ∈ l.foldl mapStep [], en.name ≠ synthName ty →
      en.value = sumAmounts (l.filter (fun t => resolvedName t == some en.name)) ∧
      (∀ t ∈ l, ∀ c, t.categories = some c → c.name = en.name →
        en.color = effColor c)) ∧
    ((synthName ty ∈ namesOf (l.foldl mapStep [])) ↔
      ∃ t ∈ l, unresolvedRef t = true) ∧
    (∀ en ∈ l.foldl mapStep [], en.name = synthName ty →
      en.value = sumAmounts (l.filter (fun t => unresolvedRef t)) ∧
      en.color = synthColor ty) := by
  have hinv : CatInv (l.foldl mapStep []) l := by
    simpa using catInv_foldl l [] [] catInv_nil
  obtain ⟨hnd, hmem, hval⟩ := hinv
  refine ⟨hnd, ?_, ?_, ?_, ?_⟩
  · intro n hn
    rw [hmem n]
    constructor
    · rintro ⟨t, ht, hb⟩
      exact ⟨t, ht,
        (bucketName_resolved_iff t n (by rw [hl t ht]; exact hn)).mp hb⟩
    · rintro ⟨t, ht, hr⟩
      exact ⟨t, ht,
        (bucketName_resolved_iff t n (by rw [hl t ht]; exact hn)).mpr hr⟩
  · intro en hen hn
    obtain ⟨hv, t0, ht0, hb0⟩ := hval en hen
    constructor
    · rw [hv, bucketSum]
      congr 1
      apply List.filter_congr
      intro t ht
      apply bool_eq_of_iff
      rw [beq_iff_eq, beq_iff_eq]
      exact bucketName_resolved_iff t en.name (by rw [hl t ht]; exact hn)
    · intro t ht c hc hcn
      cases hc0 : t0.categories with
      | some c0 =>
          have heq := (bucketOf_of_resolved t0 c0 hc0).symm.trans hb0
          rw [Option.some.injEq, Prod.mk.injEq] at heq
          have hcol := H2 t ht t0 ht0 c c0 hc hc0 (by rw [hcn, ← heq.1])
          rw [← heq.2, hcol]
      | none =>
          cases hid : t0.category_id with
          | none =>
              have hno : bucketOf t0 = none := by simp [bucketOf, hc0, hid]
              rw [hno] at hb0
              exact absurd hb0 (by simp)
          | some cid =>
              by_cases hcid : cid = ""
              · have hno : bucketOf t0 = none := by
                  simp only [bucketOf, hc0, hid]
                  rw [if_pos hcid]
                rw [hno] at hb0
                exact absurd hb0 (by simp)
              · have hb2 : bucketOf t0 = some (synthName ty, synthColor ty) := by
                  have h4 := bucketOf_of_unresolved t0
                    (unresolvedRef_of_shape t0 cid hc0 hid hcid)
                  rw [hl t0 ht0] at h4
                  exact h4
                have heq := hb2.symm.trans hb0
                rw [Option.some.injEq, Prod.mk.injEq] at heq
                exact absurd heq.1.symm hn
  · rw [hmem (synthName ty)]
    constructor
    · rintro ⟨t, ht, hb⟩
      have hty := hl t ht
      refine ⟨t, ht, ?_⟩
      refine (bucketName_synth_iff t (fun c hc => by rw [hty]; exact H1 t ht c hc)).mp ?_
      rw [hty]
      exact hb
    · rintro ⟨t, ht, hu⟩
      have hty := hl t ht
      refine ⟨t, ht, ?_⟩
      have h5 := (bucketName_synth_iff t
        (fun c hc => by rw [hty]; exact H1 t ht c hc)).mpr hu
      rw [hty] at h5
      exact h5
  · intro en hen hn
    obtain ⟨hv, t0, ht0, hb0⟩ := hval en hen
    constructor
    · rw [hv, bucketSum, hn]
      congr 1
      apply List.filter_congr
      intro t ht
      have hty := hl t ht
      apply bool_eq_of_iff
      constructor
      · intro hbq
        have hb3 : bucketName t = some (synthName ty) := by simpa using hbq
        refine (bucketName_synth_iff t
          (fun c hc => by rw [hty]; exact H1 t ht c hc)).mp ?_
        rw [hty]
        exact hb3
      · intro hu
        have h5 := (bucketName_synth_iff t
          (fun c hc => by rw [hty]; exact H1 t ht c hc)).mpr hu
        rw [hty] at h5
        simpa using h5
    · cases hc0 : t0.categories with
      | some c0 =>
          have heq := (bucketOf_of_resolved t0 c0 hc0).symm.trans hb0
          rw [Option.some.injEq, Prod.mk.injEq] at heq
          exact absurd (by rw [heq.1, hn]) (H1 t0 ht0 c0 hc0)
      | none =>
          cases hid : t0.category_id with
          | none =>
              have hno : bucketOf t0 = none := by simp [bucketOf, hc0, hid]
              rw [hno] at hb0
              exact absurd hb0 (by simp)
          | some cid =>
              by_cases hcid : cid = ""
              · have hno : bucketOf t0 = none := by
                  simp only [bucketOf, hc0, hid]
                  rw [if_pos hcid]
                rw [hno] at hb0
                exact absurd hb0 (by simp)
              · have hb2 : bucketOf t0 = some (synthName ty, synthColor ty) := by
                  have h4 := bucketOf_of_unresolved t0
                    (unresolvedRef_of_shape t0 cid hc0 hid hcid)
                  rw [hl t0 ht0] at h4
                  exact h4
                have heq := hb2.symm.trans hb0
                rw [Option.some.injEq, Prod.mk.injEq] at heq
                exact heq.2.symm


theorem incomeByCategory_eq (txs : List Transaction) (s e : YMD) :
    incomeByCategory txs s e =
      ((filterByRange txs s e).filter (fun t => t.type == TxType.income)).foldl
        mapStep [] := by
  rw [incomeByCategory, catStep2_foldl]

theorem expensesByCategory_eq (txs : List Transaction) (s e : YMD) :
    expensesByCategory txs s e =
      ((filterByRange txs s e).filter (fun t => t.type == TxType.expense)).foldl
        mapStep [] := by
  rw [expensesByCategory, catStep2_foldl]

theorem catMap_claim (txs : List Transaction) (s e : YMD) (ty : TxType)
    (H1 : ∀ t ∈ filterByRange txs s e, ∀ c, t.categories = some c →
      c.name ≠ synthName t.type)
    (H2 : ∀ t ∈ filterByRange txs s e, ∀ u ∈ filterByRange txs s e, ∀ c d,
      t.categories = some c → u.categories = some d → t.type = u.type →
      c.name = d.name → effColor c = effColor d) :
    (namesOf (((filterByRange txs s e).filter (fun t => t.type == ty)).foldl
      mapStep [])).Nodup ∧
    (∀ n, n ≠ synthName ty →
      ((n ∈ namesOf (((filterByRange txs s e).filter
          (fun t => t.type == ty)).foldl mapStep [])) ↔
        ∃ t ∈ filterByRange txs s e, t.type = ty ∧ resolvedName t = some n)) ∧
    (∀ en ∈ ((filterByRange txs s e).filter (fun t => t.type == ty)).foldl
        mapStep [], en.name ≠ synthName ty →
      en.value = resolvedTypeSum (filterByRange txs s e) ty en.name ∧
      (∀ t ∈ filterByRange txs s e, t.type = ty → ∀ c, t.categories = some c →
        c.name = en.name → en.color = effColor c)) ∧
    ((synthName ty ∈ namesOf (((filterByRange txs s e).filter
        (fun t => t.type == ty)).foldl mapStep [])) ↔
      ∃ t ∈ filterByRange txs s e, t.type = ty ∧ unresolvedRef t = true) ∧
    (∀ en ∈ ((filterByRange txs s e).filter (fun t => t.type == ty)).foldl
        mapStep [], en.name = synthName ty →
      en.value = unresolvedTypeSum (filterByRange txs s e) ty ∧
      en.color = synthColor ty) := by
  have hl : ∀ t ∈ (filterByRange txs s e).filter (fun t => t.type == ty),
      t.type = ty := fun t ht => beq_iff_eq.mp (List.mem_filter.mp ht).2
  have hm1 : ∀ t ∈ (filterByRange txs s e).filter (fun t => t.type == ty),
      ∀ c, t.categories = some c → c.name ≠ synthName ty := by
    intro t ht c hc
    have h5 := H1 t (List.mem_filter.mp ht).1 c hc
    rw [hl t ht] at h5
    exact h5
  have hm2 : ∀ t ∈ (filterByRange txs s e).filter (fun t => t.type == ty),
      ∀ u ∈ (filterByRange txs s e).filter (fun t => t.type == ty),
      ∀ c d, t.categories = some c → u.categories = some d →
      c.name = d.name → effColor c = effColor d := by
    intro t ht u hu c d hc hd hn
    exact H2 t (List.mem_filter.mp ht).1 u (List.mem_filter.mp hu).1 c d hc hd
      (by rw [hl t ht, hl u hu]) hn
  obtain ⟨m1, m2, m3, m4, m5⟩ :=
    catMap_master ((filterByRange txs s e).filter (fun t => t.type == ty)) ty
      hl hm1 hm2
  refine ⟨m1, ?_, ?_, ?_, ?_⟩
  · intro n hn
    rw [m2 n hn]
    constructor
    · rintro ⟨t, ht, hr⟩
      exact ⟨t, (List.mem_filter.mp ht).1, hl t ht, hr⟩
    · rintro ⟨t, ht, hty, hr⟩
      exact ⟨t, List.mem_filter.mpr ⟨ht, beq_iff_eq.mpr hty⟩, hr⟩
  · intro en hen hn
    obtain ⟨hv, hcol⟩ := m3 en hen hn
    refine ⟨?_, ?_⟩
    · rw [hv, resolvedTypeSum, List.filter_filter]
      congr 1
      apply List.filter_congr
      intro a _
      rw [Bool.and_comm]
    · intro t ht hty c hc hcn
      exact hcol t (List.mem_filter.mpr ⟨ht, beq_iff_eq.mpr hty⟩) c hc hcn
  · rw [m4]
    constructor
    · rintro ⟨t, ht, hu⟩
      exact ⟨t, (List.mem_filter.mp ht).1, hl t ht, hu⟩
    · rintro ⟨t, ht, hty, hu⟩
      exact ⟨t, List.mem_filter.mpr ⟨ht, beq_iff_eq.mpr hty⟩, hu⟩
  · intro en hen hn
    obtain ⟨hv, hcol⟩ := m5 en hen hn
    refine ⟨?_, hcol⟩
    rw [hv, unresolvedTypeSum, List.filter_filter]
    congr 1
    apply List.filter_congr
    intro a _
    rw [Bool.and_comm]


/-- Claim C5: for every filtered transaction collection the per-category
breakdowns map each category display name to the sum of amounts of
transactions of the matching type with that category, carrying the
category's display color (assuming no user category shares a synthetic
label and equally named categories of one type share a color, the shapes
the stored data has), and every transaction that has a category reference
but no resolved category info is bucketed under "Uncategorized Income" or
"Uncategorized Expense" according to its type with the fixed fallback
colors #10b981 / #ef4444. -/
theorem c5_category_breakdown (txs : List Transaction) (s e : YMD)
    (H1 : ∀ t ∈ filterByRange txs s e, ∀ c, t.categories = some c →
      c.name ≠ synthName t.type)
    (H2 : ∀ t ∈ filterByRange txs s e, ∀ u ∈ filterByRange txs s e, ∀ c d,
      t.categories = some c → u.categories = some d → t.type = u.type →
      c.name = d.name → effColor c = effColor d) :
    (namesOf (incomeByCategory txs s e)).Nodup ∧
    (∀ n, n ≠ "Uncategorized Income" →
      ((n ∈ namesOf (incomeByCategory txs s e)) ↔
        ∃ t ∈ filterByRange txs s e, t.type = TxType.income ∧
          resolvedName t = some n)) ∧
    (∀ en ∈ incomeByCategory txs s e, en.name ≠ "Uncategorized Income" →
      en.value = resolvedTypeSum (filterByRange txs s e) TxType.income en.name ∧
      (∀ t ∈ filterByRange txs s e, t.type = TxType.income → ∀ c,
        t.categories = some c → c.name = en.name → en.color = effColor c)) ∧
    (("Uncategorized Income" ∈ namesOf (incomeByCategory txs s e)) ↔
      ∃ t ∈ filterByRange txs s e, t.type = TxType.income ∧
        unresolvedRef t = true) ∧
    (∀ en ∈ incomeByCategory txs s e, en.name = "Uncategorized Income" →
      en.value = unresolvedTypeSum (filterByRange txs s e) TxType.income ∧
      en.color = "#10b981") ∧
    (namesOf (expensesByCategory txs s e)).Nodup ∧
    (∀ n, n ≠ "Uncategorized Expense" →
      ((n ∈ namesOf (expensesByCategory txs s e)) ↔
        ∃ t ∈ filterByRange txs s e, t.type = TxType.expense ∧
          resolvedName t = some n)) ∧
    (∀ en ∈ expensesByCategory txs s e, en.name ≠ "Uncategorized Expense" →
      en.value = resolvedTypeSum (filterByRange txs s e) TxType.expense en.name ∧
      (∀ t ∈ filterByRange txs s e, t.type = TxType.expense → ∀ c,
        t.categories = some c → c.name = en.name → en.color = effColor c)) ∧
    (("Uncategorized Expense" ∈ namesOf (expensesByCategory txs s e)) ↔
      ∃ t ∈ filterByRange txs s e, t.type = TxType.expense ∧
        unresolvedRef t = true) ∧
    (∀ en ∈ expensesByCategory txs s e, en.name = "Uncategorized Expense" →
      en.value = unresolvedTypeSum (filterByRange txs s e) TxType.expense ∧
      en.color = "#ef4444") := by
  have hI := catMap_claim txs s e TxType.income H1 H2
  have hE := catMap_claim txs s e TxType.expense H1 H2
  rw [incomeByCategory_eq, expensesByCategory_eq]
  simp only [synthName, synthColor] at hI hE
  exact ⟨hI.1, hI.2.1, hI.2.2.1, hI.2.2.2.1, hI.2.2.2.2,
    hE.1, hE.2.1, hE.2.2.1, hE.2.2.2.1, hE.2.2.2.2⟩

def exampleC5 : List Transaction :=
  [ { id := "a", user_id := "u", amount := 100, type := TxType.income,
      date := ⟨2024, 1, 10⟩, category_id := some "c1",
      categories := some { id := "c1", name := "Sales", color := "#111111" } },
    { id := "b", user_id := "u", amount := 40, type := TxType.expense,
      date := ⟨2024, 1, 15⟩, category_id := some "c2", categories := none } ]

/-- Witness for claim C5 on a two-transaction collection with one resolved
category. -/
theorem c5_category_breakdown_witness :
    (namesOf (incomeByCategory exampleC5 ⟨2024, 1, 1⟩ ⟨2024, 1, 31⟩)).Nodup :=
  (c5_category_breakdown exampleC5 ⟨2024, 1, 1⟩ ⟨2024, 1, 31⟩
    (by
      intro t ht c hc
      simp [filterByRange, inRange, exampleC5, YMD.key] at ht
      rcases ht with h | h
      · subst h; cases hc; decide
      · subst h; cases hc)
    (by
      intro t ht u hu c d hc hd hty hn
      simp [filterByRange, inRange, exampleC5, YMD.key] at ht hu
      rcases ht with h | h
      · rcases hu with h4 | h4
        · subst h; subst h4; cases hc; cases hd; rfl
        · subst h4; cases hd
      · subst h; cases hc)).1

theorem catStep2_skip (maps : List CatEntry × List CatEntry) (t : Transaction)
    (hb : bucketOf t = none) : catStep2 maps t = maps := by
  rw [catStep2, hb]

theorem specTotal_append (l : List Transaction) (t : Transaction) (s e : YMD)
    (ty : TxType) :
    specTotal (l ++ [t]) s e ty =
      specTotal l s e ty +
        (if t.type == ty && inRange s e t then t.amount else 0) := by
  rw [specTotal, specTotal, List.filter_append]
  cases h : (t.type == ty && inRange s e t) <;> simp [sumAmounts, h]

theorem filterByRange_append_single (txs : List Transaction) (t : Transaction)
    (s e : YMD) :
    filterByRange (txs ++ [t]) s e =
      filterByRange txs s e ++ (if inRange s e t then [t] else []) := by
  rw [filterByRange, filterByRange, List.filter_append]
  cases h : inRange s e t <;> simp [h]

/-- Claim C9: a transaction with a null category reference and no joined
category info contributes to totalIncome / totalExpenses and to the monthly
sums behind the trend, but appears in neither incomeByCategory nor
expensesByCategory: appending such a transaction leaves both maps unchanged
while the totals and per-month sums gain exactly its amount when it is in
range. -/
theorem c9_uncategorized_null_excluded (txs : List Transaction) (s e : YMD)
    (t : Transaction) (h1 : t.categories = none) (h2 : t.category_id = none) :
    incomeByCategory (txs ++ [t]) s e = incomeByCategory txs s e ∧
    expensesByCategory (txs ++ [t]) s e = expensesByCategory txs s e ∧
    totalIncome (txs ++ [t]) s e = totalIncome txs s e +
      (if t.type == TxType.income && inRange s e t then t.amount else 0) ∧
    totalExpenses (txs ++ [t]) s e = totalExpenses txs s e +
      (if t.type == TxType.expense && inRange s e t then t.amount else 0) ∧
    (∀ y m, monthIncome (filterByRange (txs ++ [t]) s e) y m =
      monthIncome (filterByRange txs s e) y m +
        (if (t.type == TxType.income && inMonth y m t) && inRange s e t then
          t.amount else 0)) ∧
    (∀ y m, monthExpenses (filterByRange (txs ++ [t]) s e) y m =
      monthExpenses (filterByRange txs s e) y m +
        (if (t.type == TxType.expense && inMonth y m t) && inRange s e t then
          t.amount else 0)) := by
  have hb : bucketOf t = none := by simp [bucketOf, h1, h2]
  have hfold : ∀ (init : List CatEntry × List CatEntry),
      (filterByRange (txs ++ [t]) s e).foldl catStep2 init =
        (filterByRange txs s e).foldl catStep2 init := by
    intro init
    rw [filterByRange_append_single, List.foldl_append]
    cases h : inRange s e t
    · simp
    · simp [catStep2_skip _ t hb]
  refine ⟨?_, ?_, ?_, ?_, ?_, ?_⟩
  · rw [incomeByCategory, incomeByCategory, hfold]
  · rw [expensesByCategory, expensesByCategory, hfold]
  · rw [totalIncome_eq, totalIncome_eq, specTotal_append]
  · rw [totalExpenses_eq, totalExpenses_eq, specTotal_append]
  · intro y m
    rw [filterByRange_append_single]
    cases h : inRange s e t
    · simp [h]
    · simp [h, monthIncome_append]
  · intro y m
    rw [filterByRange_append_single]
    cases h : inRange s e t
    · simp [h]
    · simp [h, monthExpenses_append]

/-- Witness for claim C9: an uncategorized income transaction in range
leaves the income category map unchanged. -/
theorem c9_uncategorized_null_excluded_witness :
    incomeByCategory (exampleC2 ++
      [ { id := "z", user_id := "u", amount := 9, type := TxType.income,
          date := ⟨2024, 1, 20⟩ } ]) ⟨2024, 1, 1⟩ ⟨2024, 1, 31⟩ =
      incomeByCategory exampleC2 ⟨2024, 1, 1⟩ ⟨2024, 1, 31⟩ :=
  (c9_uncategorized_null_excluded exampleC2 ⟨2024, 1, 1⟩ ⟨2024, 1, 31⟩
    { id := "z", user_id := "u", amount := 9, type := TxType.income,
      date := ⟨2024, 1, 20⟩ } rfl rfl).1


/-! ### Backend routes and handlers (backend/server.js) -/

/-- HTTP methods used by the Express app. -/
inductive Method where
  | GET
  | POST
  | PUT
  | DELETE
deriving DecidableEq, Repr

def methodName : Method → String
  | Method.GET => "GET"
  | Method.POST => "POST"
  | Method.PUT => "PUT"
  | Method.DELETE => "DELETE"

/-- Route table of server.js: the only registered routes are GET /,
GET /api/health, GET /api/categories, GET /api/transactions, POST
/api/login, POST /api/signup and POST /api/transactions. No PUT and no
DELETE route exists. -/
def routeRegistered (m : Method) (p : String) : Bool :=
  (m == Method.GET && (p == "/" || p == "/api/health" || p == "/api/categories" ||
    p == "/api/transactions")) ||
  (m == Method.POST && (p == "/api/login" || p == "/api/signup" ||
    p == "/api/transactions"))

/-- No DELETE request matches any registered route. -/
theorem no_delete_route (p : String) : routeRegistered Method.DELETE p = false := by
  simp [routeRegistered]

structure HttpResponse where
  status : Nat
  body : String
deriving DecidableEq, Repr

/-- The catch-all 404 middleware of server.js. -/
def notFoundResponse (m : Method) (p : String) : HttpResponse :=
  { status := 404, body := "Route " ++ methodName m ++ " " ++ p ++ " not found" }

/-- Server reply to DELETE /api/transactions/:id. The route table contains
no DELETE entry, so the request falls through to the 404 middleware and the
store is untouched; the registered branch is unreachable by
`no_delete_route`. -/
def serverHandleDelete (id : String) (db : List Transaction) :
    HttpResponse × List Transaction :=
  if routeRegistered Method.DELETE ("/api/transactions/" ++ id) then
    ({ status := 200, body := "" }, db)
  else (notFoundResponse Method.DELETE ("/api/transactions/" ++ id), db)

/-- The `res.ok` flag of fetch: status in the 200..299 range. -/
def resOk (r : HttpResponse) : Bool :=
  decide (200 ≤ r.status) && decide (r.status < 300)

/-- Client deleteTransaction of TransactionContext.tsx composed with the
server reply: issues DELETE /api/transactions/:id, throws the response text
when not ok, and removes the row from the cache only on success. Returns
(call result, server store, client cache). -/
def deleteTransaction (id : String) (db cache : List Transaction) :
    Except String Unit × List Transaction × List Transaction :=
  let rd := serverHandleDelete id db
  if resOk rd.1 then (Except.ok (), rd.2, cache.filter (fun t => !(t.id == id)))
  else (Except.error rd.1.body, rd.2, cache)

def exampleTx : Transaction :=
  { id := "t1", user_id := "u", amount := 5, type := TxType.expense,
    date := ⟨2024, 1, 2⟩ }

/-- Claim C6 (code bug evidence): deleteTransaction never succeeds because
the backend registers no DELETE route; already the first call on an
existing row returns the 404 route-not-found error, the stored row
survives, the cache is unchanged, and no deleted-row snapshot exists. -/
theorem c6_delete_route_missing :
    (∀ p, routeRegistered Method.DELETE p = false) ∧
    deleteTransaction "t1" [exampleTx] [exampleTx] =
      (Except.error "Route DELETE /api/transactions/t1 not found",
        [exampleTx], [exampleTx]) := by
  refine ⟨no_delete_route, ?_⟩
  rfl


/-- JavaScript `x || null` on an optional string: empty string is falsy. -/
def jsOrNullStr (o : Option String) : Option String :=
  match o with
  | some str => if str = "" then none else some str
  | none => none

/-- Body of POST /api/transactions. -/
structure TxBody where
  user_id : String
  amount : Rat
  type : TxType
  date : YMD
  account : Option String := none
  document_no : Option String := none
  description : Option String := none
  category_id : Option String := none
deriving DecidableEq, Repr

/-- POST /api/transactions handler: inserts the row exactly as received
(empty-string optionals normalized to null) and returns it with status 201.
No validation of the amount is performed. -/
def createTransaction (b : TxBody) (newId : String) (db : List Transaction) :
    (Nat × Transaction) × List Transaction :=
  let row : Transaction :=
    { id := newId, user_id := b.user_id, amount := b.amount, type := b.type,
      date := b.date, account := jsOrNullStr b.account,
      document_no := jsOrNullStr b.document_no,
      description := jsOrNullStr b.description,
      category_id := jsOrNullStr b.category_id, categories := none }
  ((201, row), db ++ [row])

def negBody : TxBody :=
  { user_id := "u", amount := -50, type := TxType.expense, date := ⟨2024, 1, 2⟩ }

/-- Claim C4, counterexample: the API stores and returns a transaction with
amount -50; the created row's amount is negative, so the amount field as
stored and returned by the API is not always nonnegative. -/
theorem c4_amount_nonnegative_counterexample :
    (createTransaction negBody "9" []).1.1 = 201 ∧
    (createTransaction negBody "9" []).1.2.amount = -50 ∧
    ¬(0 ≤ (createTransaction negBody "9" []).1.2.amount) ∧
    (createTransaction negBody "9" []).2 = [(createTransaction negBody "9" []).1.2] := by
  refine ⟨rfl, rfl, ?_, rfl⟩
  norm_num [createTransaction, negBody]

/-- JavaScript whitespace test used by String.prototype.trim. -/
def isWS (c : Char) : Bool := c == ' ' || c == '\t' || c == '\n' || c == '\r'

/-- JavaScript String.prototype.trim: drop whitespace from both ends. -/
def jsTrim (s : String) : String :=
  String.mk (((s.toList.dropWhile isWS).reverse.dropWhile isWS).reverse)

/-- The z.enum check on the type field. -/
def parseType (str : String) : Option TxType :=
  if str = "income" then some TxType.income
  else if str = "expense" then some TxType.expense
  else none

/-- Raw form state of the AddTransaction page after `parseFloat` on the
amount (none models NaN). -/
structure TxForm where
  type : String
  amount : Option Rat
  date : String
  category_id : String
  account : String
  document_no : String
  description : String
deriving DecidableEq, Repr

/-- Output of a successful transactionSchema parse. -/
structure ValidTx where
  type : TxType
  amount : Rat
  date : String
  category_id : String
  account : String
  document_no : String
  description : String
deriving DecidableEq, Repr

/-- The zod transactionSchema of the AddTransaction page: type is one of
income/expense, amount is a positive number, date and category are
nonempty, and the trimmed optional strings obey the length caps 100/50/500.
-/
def transactionSchemaParse (f : TxForm) : Option ValidTx :=
  match parseType f.type, f.amount with
  | some ty, some a =>
      if 0 < a then
        if 1 ≤ f.date.length then
          if 1 ≤ f.category_id.length then
            if (jsTrim f.account).length ≤ 100 then
              if (jsTrim f.document_no).length ≤ 50 then
                if (jsTrim f.description).length ≤ 500 then
                  some { type := ty, amount := a, date := f.date,
                         category_id := f.category_id, account := jsTrim f.account,
                         document_no := jsTrim f.document_no,
                         description := jsTrim f.description }
                else none
              else none
            else none
          else none
        else none
      else none
  | _, _ => none

/-- Claim C4 (amended): positivity of the amount is enforced only by the
client-side zod schema, whose successful parses always carry a positive
amount; the server stores and returns the submitted amount unchanged with
status 201 and no sign check. -/
theorem c4_amount_positivity_amended :
    (∀ f v, transactionSchemaParse f = some v → 0 < v.amount) ∧
    (∀ b newId db,
      (createTransaction b newId db).1.2.amount = b.amount ∧
      (createTransaction b newId db).1.1 = 201 ∧
      (createTransaction b newId db).2 = db ++ [(createTransaction b newId db).1.2]) := by
  constructor
  · intro f v hv
    unfold transactionSchemaParse at hv
    split at hv
    · split at hv
      · split at hv
        · split at hv
          · split at hv
            · split at hv
              · split at hv
                · cases hv
                  assumption
                · exact absurd hv (by simp)
              · exact absurd hv (by simp)
            · exact absurd hv (by simp)
          · exact absurd hv (by simp)
        · exact absurd hv (by simp)
      · exact absurd hv (by simp)
    · exact absurd hv (by simp)
  · intro b newId db
    exact ⟨rfl, rfl, rfl⟩

def exampleForm : TxForm :=
  { type := "income", amount := some 25, date := "2024-01-02",
    category_id := "c1", account := "", document_no := "", description := "" }

/-- Witness for claim C4 at a concrete valid form. -/
theorem c4_amount_positivity_amended_witness :
    0 < (({ type := TxType.income, amount := 25, date := "2024-01-02",
            category_id := "c1", account := "", document_no := "",
            description := "" } : ValidTx)).amount :=
  c4_amount_positivity_amended.1 exampleForm _ (by rfl)



/-! ### Signup and login (backend/server.js) -/

/-- Row of the users table. -/
structure UserRow where
  id : String
  name : Option String
  email : String
  user_type : String
  organization_name : Option String
  organization_id : Option String
  password : String
deriving DecidableEq, Repr

/-- JSON object for a full `SELECT *` user row, in column order. -/
def userRowJson (u : UserRow) : List (String × Option String) :=
  [("id", some u.id), ("name", u.name), ("email", some u.email),
   ("user_type", some u.user_type), ("organization_name", u.organization_name),
   ("organization_id", u.organization_id), ("password", some u.password)]

/-- The RETURNING column list of the signup INSERT: id, name, email,
user_type, organization_name, organization_id - no password. -/
def signupReturningJson (u : UserRow) : List (String × Option String) :=
  [("id", some u.id), ("name", u.name), ("email", some u.email),
   ("user_type", some u.user_type), ("organization_name", u.organization_name),
   ("organization_id", u.organization_id)]

/-- The rest-destructuring of the login handler that drops the password
key: every other key of the row object, in order. -/
def loginUserJson (u : UserRow) : List (String × Option String) :=
  (userRowJson u).filter (fun kv => !(kv.1 == "password"))

structure SignupBody where
  name : Option String := none
  email : Option String := none
  user_type : Option String := none
  organization_name : Option String := none
  organization_id : Option String := none
  password : Option String := none
deriving DecidableEq, Repr

/-- JavaScript truthiness of an optional string field. -/
def isTruthyStr (o : Option String) : Bool :=
  match o with
  | some str => !(str == "")
  | none => false

inductive ApiResult where
  | badRequest (msg : String)
  | created (body : List (String × Option String))
  | okUser (msg : String) (user : List (String × Option String))
deriving DecidableEq, Repr

/-- POST /api/signup handler: requires email, user_type and password,
inserts the row with the bcrypt hash (passed in as `hashed`) and answers
with the RETURNING columns. -/
def signupHandler (b : SignupBody) (hashed newId : String) (db : List UserRow) :
    ApiResult × List UserRow :=
  if !(isTruthyStr b.email) || !(isTruthyStr b.user_type) ||
      !(isTruthyStr b.password) then
    (ApiResult.badRequest "Email, user_type and password are required", db)
  else
    let row : UserRow :=
      { id := newId, name := jsOrNullStr b.name, email := b.email.getD "",
        user_type := b.user_type.getD "",
        organization_name := jsOrNullStr b.organization_name,
        organization_id := jsOrNullStr b.organization_id, password := hashed }
    (ApiResult.created (signupReturningJson row), db ++ [row])

/-- POST /api/login handler: requires email and password, looks the user up
by email, compares the password with bcrypt (passed in as `checkPw`) and on
success answers with the user object minus the password field. -/
def loginHandler (email password : Option String) (db : List UserRow)
    (checkPw : String → String → Bool) : ApiResult :=
  if !(isTruthyStr email) || !(isTruthyStr password) then
    ApiResult.badRequest "Email and password are required"
  else
    match db.find? (fun u => u.email == email.getD "") with
    | none => ApiResult.badRequest "Invalid email or password"
    | some u =>
        if checkPw (password.getD "") u.password then
          ApiResult.okUser "Login successful" (loginUserJson u)
        else ApiResult.badRequest "Invalid email or password"

/-- Claim C8: a successful signup answers with the RETURNING columns, which
exclude the password column, and a successful login answers with the user
object with the password field removed - neither response object contains a
password key or a password pair. -/
theorem c8_password_never_returned :
    (∀ b hashed newId db res db2,
      signupHandler b hashed newId db = (ApiResult.created res, db2) →
      ("password" ∉ res.map Prod.fst ∧ ∀ v, ("password", v) ∉ res)) ∧
    (∀ email password db checkPw msg user,
      loginHandler email password db checkPw = ApiResult.okUser msg user →
      ("password" ∉ user.map Prod.fst ∧ ∀ v, ("password", v) ∉ user)) := by
  constructor
  · intro b hashed newId db res db2 hcall
    unfold signupHandler at hcall
    split at hcall
    · exact absurd (congrArg Prod.fst hcall) (by simp)
    · rw [Prod.mk.injEq] at hcall
      have hres := hcall.1
      rw [ApiResult.created.injEq] at hres
      subst hres
      constructor
      · simp [signupReturningJson]
      · intro v
        simp [signupReturningJson]
  · intro email password db checkPw msg user hcall
    unfold loginHandler at hcall
    split at hcall
    · exact absurd hcall (by simp)
    · split at hcall
      · exact absurd hcall (by simp)
      · split at hcall
        · rw [ApiResult.okUser.injEq] at hcall
          have huser := hcall.2
          subst huser
          constructor
          · intro hc
            rcases List.mem_map.mp hc with ⟨kv, hkv, hfst⟩
            have := (List.mem_filter.mp hkv).2
            rw [hfst] at this
            simp at this
          · intro v hc
            have := (List.mem_filter.mp hc).2
            simp at this
        · exact absurd hcall (by simp)

def exampleSignupBody : SignupBody :=
  { email := some "a@b.c", user_type := some "personal", password := some "pw" }

def exampleUserRow : UserRow :=
  { id := "1", name := none, email := "a@b.c", user_type := "personal",
    organization_name := none, organization_id := none, password := "h4sh" }

/-- Witness for claim C8 at a concrete signup. -/
theorem c8_password_never_returned_witness :
    "password" ∉ (signupReturningJson exampleUserRow).map Prod.fst ∧
    ∀ v, ("password", v) ∉ signupReturningJson exampleUserRow :=
  c8_password_never_returned.1 exampleSignupBody "h4sh" "1" []
    (signupReturningJson exampleUserRow) [exampleUserRow] (by rfl)

/-! ### Client ledger cache (TransactionContext.tsx) -/

/-- Cache update of updateTransaction on success: replace every record
whose id equals the updated transaction's id by the server's record. -/
def updateTransactionCache (cache : List Transaction) (tx utx : Transaction) :
    List Transaction :=
  cache.map (fun t => if t.id == tx.id then utx else t)

/-- Claim C7: when the updated id is present in a duplicate-free cache, the
cache transition of a successful updateTransaction replaces exactly the
matching-id record in place with the server's returned record (the result
is the cache with position j overwritten), keeps the length, and leaves
every record with a different id unchanged at its index, so the relative
order never changes. -/
theorem c7_update_cache_frame (cache : List Transaction) (tx utx : Transaction)
    (j : Nat) (t0 : Transaction) (hnd : (cache.map (fun t => t.id)).Nodup)
    (hj : cache[j]? = some t0) (ht0 : t0.id = tx.id) :
    updateTransactionCache cache tx utx = cache.set j utx ∧
    (updateTransactionCache cache tx utx).length = cache.length ∧
    (∀ (i : Nat) (t1 : Transaction), cache[i]? = some t1 → t1.id ≠ tx.id →
      (updateTransactionCache cache tx utx)[i]? = some t1) := by
  have hjlt : j < cache.length := by
    by_contra hc
    rw [List.getElem?_eq_none (Nat.le_of_not_lt hc)] at hj
    exact absurd hj (by simp)
  have hframe : ∀ (i : Nat) (t1 : Transaction), cache[i]? = some t1 →
      t1.id ≠ tx.id → (updateTransactionCache cache tx utx)[i]? = some t1 := by
    intro i t1 hi hne
    rw [updateTransactionCache, List.getElem?_map, hi]
    simp [hne]
  refine ⟨?_, by simp [updateTransactionCache], hframe⟩
  apply List.ext_getElem?
  intro i
  by_cases hilt : i < cache.length
  · have hi : cache[i]? = some cache[i] := List.getElem?_eq_getElem hilt
    by_cases hij : i = j
    · subst hij
      have ht : cache[i] = t0 := by
        rw [hi] at hj
        exact Option.some.inj hj
      rw [updateTransactionCache, List.getElem?_map, hi,
        List.getElem?_set_self hilt]
      simp [ht, ht0]
    · have hne : cache[i].id ≠ tx.id := by
        intro hc
        have hns := List.nodup_iff_injective_get.mp hnd
        have hgi : (cache.map (fun t => t.id)).get ⟨i, by simpa using hilt⟩ =
            cache[i].id := by simp
        have hgj : (cache.map (fun t => t.id)).get ⟨j, by simpa using hjlt⟩ =
            cache[j].id := by simp
        have hjid : cache[j].id = tx.id := by
          have : cache[j] = t0 := by
            have := List.getElem?_eq_getElem hjlt
            rw [this] at hj
            exact Option.some.inj hj
          rw [this, ht0]
        have heq : (cache.map (fun t => t.id)).get ⟨i, by simpa using hilt⟩ =
            (cache.map (fun t => t.id)).get ⟨j, by simpa using hjlt⟩ := by
          rw [hgi, hgj, hc, hjid]
        have := hns heq
        rw [Fin.mk.injEq] at this
        exact hij this
      rw [updateTransactionCache, List.getElem?_map, hi,
        List.getElem?_set_ne (fun hc => hij hc.symm)]
      simp [hne, hi]
  · have h1 : cache[i]? = none := List.getElem?_eq_none (Nat.le_of_not_lt hilt)
    rw [updateTransactionCache, List.getElem?_map, h1]
    rw [List.getElem?_eq_none]
    · rfl
    · simpa using Nat.le_of_not_lt hilt

/-- Witness for claim C7 on a one-element cache. -/
theorem c7_update_cache_frame_witness :
    updateTransactionCache [exampleTx]
      { exampleTx with amount := 6 } { exampleTx with amount := 7 } =
      List.set [exampleTx] 0 { exampleTx with amount := 7 } :=
  (c7_update_cache_frame [exampleTx] { exampleTx with amount := 6 }
    { exampleTx with amount := 7 } 0 exampleTx (by simp) (by rfl) (by rfl)).1

/-- Outcome of the fetch inside fetchTransactions: the response ok flag and
status, and the parsed JSON body or a thrown network/parse error. -/
structure FetchResponse where
  ok : Bool
  status : Nat
  body : Except String (List Transaction)
deriving Repr

/-- Body of the try block of fetchTransactions: throw on a non-ok status,
otherwise produce the parsed data or the thrown error. -/
def fetchAttempt (res : FetchResponse) : Except String (List Transaction) :=
  if res.ok then res.body
  else Except.error ("Failed to fetch transactions: " ++ toString res.status)

/-- fetchTransactions of TransactionContext.tsx: on success the cache is
replaced by the fetched data; the catch block only logs, so on any failure
the function returns with the cache untouched and no error propagates (the
return type carries no error). -/
def fetchTransactions (res : FetchResponse) (cache : List Transaction) :
    List Transaction :=
  match fetchAttempt res with
  | Except.ok data => data
  | Except.error _ => cache

/-- Claim C10: if the fetch fails (non-ok status or a thrown fetch/parse
error) the cache collection is left unchanged and the error is swallowed;
only a successful fetch replaces the cache with the fetched data. -/
theorem c10_fetch_failure_preserves_cache (res : FetchResponse)
    (cache : List Transaction) :
    (res.ok = false → fetchTransactions res cache = cache) ∧
    (∀ msg, res.body = Except.error msg → fetchTransactions res cache = cache) ∧
    (∀ data, res.ok = true → res.body = Except.ok data →
      fetchTransactions res cache = data) := by
  refine ⟨?_, ?_, ?_⟩
  · intro hok
    simp [fetchTransactions, fetchAttempt, hok]
  · intro msg hmsg
    cases hok : res.ok
    · simp [fetchTransactions, fetchAttempt, hok]
    · simp [fetchTransactions, fetchAttempt, hok, hmsg]
  · intro data hok hdata
    simp [fetchTransactions, fetchAttempt, hok, hdata]

/-- Witness for claim C10 at a failed fetch with status 500. -/
theorem c10_fetch_failure_preserves_cache_witness :
    fetchTransactions { ok := false, status := 500, body := Except.error "boom" }
      [exampleTx] = [exampleTx] :=
  (c10_fetch_failure_preserves_cache
    { ok := false, status := 500, body := Except.error "boom" } [exampleTx]).1 rfl


end Accounting
